import Mathlib

set_option maxHeartbeats 1000000

/-!
Verification of the Calendar_Agendator email-to-calendar pipeline.

The repository has two near-identical entry points:
* `Agendator.py` — the continuous-loop variant (namespace `Agendator` below);
* `AgendatorActions.py` — the single-shot variant (namespace `AgendatorActions`).

Strings are modelled as `List Char`.  Python's `json.loads` is modelled by a
small executable recursive-descent parser (`jsonLoads`) covering the JSON
subset the pipeline exchanges (objects, arrays, strings with simple escapes,
integer numbers, `null`, `true`, `false`); `datetime.fromisoformat` is
modelled by `parseIso` on the offset-qualified second-precision layout that
the prompt mandates.  External effects (the HTTP request, the IMAP
connection, the calendar insert) are supplied as oracles, so every function
here is executable.
-/

namespace Agendador

/-- Characters removed by Python `str.strip()` (the ASCII whitespace set). -/
def isPyWs (c : Char) : Bool :=
  c = ' ' || c = '\t' || c = '\n' || c = '\r' || c = '\x0b' || c = '\x0c'

/-- JSON whitespace as accepted by `json.loads` (space, tab, newline, CR). -/
def isJsonWs (c : Char) : Bool :=
  c = ' ' || c = '\t' || c = '\n' || c = '\r'

/-- Remove leading characters satisfying `p`. -/
def dropLeading (p : Char → Bool) (s : List Char) : List Char :=
  s.dropWhile p

/-- Remove trailing characters satisfying `p`. -/
def dropTrailing (p : Char → Bool) (s : List Char) : List Char :=
  (s.reverse.dropWhile p).reverse

/-- Python `str.strip()` on our character-list strings. -/
def pyStrip (s : List Char) : List Char :=
  dropTrailing isPyWs (dropLeading isPyWs s)

/-- Whitespace trimming done implicitly by `json.loads` around a document. -/
def jsonTrim (s : List Char) : List Char :=
  dropTrailing isJsonWs (dropLeading isJsonWs s)

/-- Python `s[:-n]` under a length guard: drop the last `n` characters. -/
def dropLast (n : Nat) (s : List Char) : List Char :=
  s.take (s.length - n)

/-- One bounded pass of Python `str.replace(pat, rep)`: scan left to right,
replacing each non-overlapping occurrence of `pat`.  The fuel argument is
instantiated with the string length, which bounds the number of scan steps. -/
def replaceGo (pat rep : List Char) : Nat → List Char → List Char
  | 0, s => s
  | _ + 1, [] => []
  | fuel + 1, c :: rest =>
    if pat.isPrefixOf (c :: rest) then
      rep ++ replaceGo pat rep fuel (rest.drop (pat.length - 1))
    else
      c :: replaceGo pat rep fuel rest

/-- Python `str.replace(pat, rep)` for a non-empty pattern. -/
def pyReplace (s pat rep : List Char) : List Char :=
  replaceGo pat rep s.length s

/-- JSON values as produced by `json.loads`. -/
inductive Json where
  | null : Json
  | bool (b : Bool) : Json
  | num (n : Int) : Json
  | str (s : List Char) : Json
  | arr (elems : List Json) : Json
  | obj (members : List (List Char × Json)) : Json

/-- `d.get(k)` on a Python dict built from `members` in insertion order:
a later duplicate key overrides an earlier one. -/
def pyDictGet (members : List (List Char × Json)) (k : List Char) : Option Json :=
  members.foldl (fun acc p => if p.1 = k then some p.2 else acc) none

/-- `k in d` on a Python dict built from `members`. -/
def pyDictHas (members : List (List Char × Json)) (k : List Char) : Bool :=
  members.any (fun p => p.1 = k)

/-- A JSON string body after the opening quote: returns the decoded
characters and the remainder after the closing quote.  Handles the
single-character escapes; `\u` escapes are outside the modelled subset. -/
def parseStringRest : List Char → Option (List Char × List Char)
  | [] => none
  | '"' :: r => some ([], r)
  | '\\' :: e :: r =>
    match (match e with
           | '"' => some '"'
           | '\\' => some '\\'
           | '/' => some '/'
           | 'n' => some '\n'
           | 't' => some '\t'
           | 'r' => some '\r'
           | 'b' => some '\x08'
           | 'f' => some '\x0c'
           | _ => none) with
    | some c => (parseStringRest r).map (fun p => (c :: p.1, p.2))
    | none => none
  | '\\' :: [] => none
  | c :: r => (parseStringRest r).map (fun p => (c :: p.1, p.2))

/-- Digits at the head of the input (possibly none). -/
def takeDigits (s : List Char) : List Char × List Char :=
  (s.takeWhile Char.isDigit, s.dropWhile Char.isDigit)

/-- Numeric value of a digit string, most significant first. -/
def digitsToNat (ds : List Char) : Nat :=
  ds.foldl (fun acc c => acc * 10 + (c.toNat - '0'.toNat)) 0

/-- An integer JSON number at the head of the input. -/
def parseNumber (s : List Char) : Option (Json × List Char) :=
  match s with
  | '-' :: r =>
    match takeDigits r with
    | ([], _) => none
    | (ds, rest) => some (.num (-(digitsToNat ds : Int)), rest)
  | _ =>
    match takeDigits s with
    | ([], _) => none
    | (ds, rest) => some (.num (digitsToNat ds : Int), rest)

mutual

/-- A JSON value at the head of the input (leading whitespace allowed). -/
def parseVal : Nat → List Char → Option (Json × List Char)
  | 0, _ => none
  | fuel + 1, s =>
    match dropLeading isJsonWs s with
    | 'n' :: 'u' :: 'l' :: 'l' :: r => some (.null, r)
    | 't' :: 'r' :: 'u' :: 'e' :: r => some (.bool true, r)
    | 'f' :: 'a' :: 'l' :: 's' :: 'e' :: r => some (.bool false, r)
    | '"' :: r => (parseStringRest r).map (fun p => (.str p.1, p.2))
    | '[' :: r =>
      (match dropLeading isJsonWs r with
       | ']' :: r2 => some (.arr [], r2)
       | r2 => (parseArrItems fuel r2).map (fun p => (.arr p.1, p.2)))
    | '{' :: r =>
      (match dropLeading isJsonWs r with
       | '}' :: r2 => some (.obj [], r2)
       | r2 => (parseObjItems fuel r2).map (fun p => (.obj p.1, p.2)))
    | t => parseNumber t

/-- One or more comma-separated array elements then `]`. -/
def parseArrItems : Nat → List Char → Option (List Json × List Char)
  | 0, _ => none
  | fuel + 1, s =>
    match parseVal fuel s with
    | none => none
    | some (v, r) =>
      match dropLeading isJsonWs r with
      | ',' :: r2 =>
        (parseArrItems fuel r2).map (fun p => (v :: p.1, p.2))
      | ']' :: r2 => some ([v], r2)
      | _ => none

/-- One or more comma-separated `"key": value` members then `}`. -/
def parseObjItems : Nat → List Char → Option (List (List Char × Json) × List Char)
  | 0, _ => none
  | fuel + 1, s =>
    match dropLeading isJsonWs s with
    | '"' :: r =>
      match parseStringRest r with
      | none => none
      | some (k, r1) =>
        match dropLeading isJsonWs r1 with
        | ':' :: r2 =>
          (match parseVal fuel r2 with
           | none => none
           | some (v, r3) =>
             match dropLeading isJsonWs r3 with
             | ',' :: r4 =>
               (parseObjItems fuel r4).map (fun p => ((k, v) :: p.1, p.2))
             | '}' :: r4 => some ([(k, v)], r4)
             | _ => none)
        | _ => none
    | _ => none

end

/-- A whole JSON document: one value consuming the trimmed input exactly. -/
def parseTop (t : List Char) : Option Json :=
  match parseVal (t.length + 1) t with
  | some (v, []) => some v
  | _ => none

/-- Model of `json.loads`: surrounding whitespace tolerated, otherwise the
document must be a single JSON value. -/
def jsonLoads (s : List Char) : Option Json :=
  parseTop (jsonTrim s)

/-! ### Python `datetime` model

`datetime.fromisoformat` / `isoformat` / `+ timedelta(hours=1)` on aware or
naive datetimes with second precision, as exchanged by the pipeline. -/

/-- An aware or naive Python `datetime` at second precision.  `offset` is the
fixed UTC offset in minutes (`none` for a naive datetime). -/
structure PyDateTime where
  year : Nat
  month : Nat
  day : Nat
  hour : Nat
  minute : Nat
  second : Nat
  offset : Option Int
deriving DecidableEq, Repr

/-- The Gregorian leap-year rule used by Python's `datetime`. -/
def isLeap (y : Nat) : Bool :=
  (y % 4 = 0 && ¬ y % 100 = 0) || y % 400 = 0

/-- Length of month `m` of year `y` (0 outside 1..12). -/
def daysInMonth (y m : Nat) : Nat :=
  match m with
  | 1 => 31
  | 2 => if isLeap y then 29 else 28
  | 3 => 31
  | 4 => 30
  | 5 => 31
  | 6 => 30
  | 7 => 31
  | 8 => 31
  | 9 => 30
  | 10 => 31
  | 11 => 30
  | 12 => 31
  | _ => 0

/-- Day number of a proleptic-Gregorian date (year ≥ 1), increasing by one
per calendar day; the standard civil-calendar formula with March-based
months so the leap day lands at the end of the shifted year. -/
def daysFromCivil (y m d : Nat) : Nat :=
  let y2 := if m ≤ 2 then y - 1 else y
  let m2 := if m ≤ 2 then m + 12 else m
  365 * y2 + y2 / 4 - y2 / 100 + y2 / 400 + (153 * (m2 - 3) + 2) / 5 + (d - 1)

/-- Field-validity of a datetime, as enforced by the `datetime` constructor. -/
def ValidDT (t : PyDateTime) : Prop :=
  1 ≤ t.year ∧ t.year ≤ 9999 ∧ 1 ≤ t.month ∧ t.month ≤ 12 ∧
  1 ≤ t.day ∧ t.day ≤ daysInMonth t.year t.month ∧
  t.hour ≤ 23 ∧ t.minute ≤ 59 ∧ t.second ≤ 59

instance (t : PyDateTime) : Decidable (ValidDT t) := by
  unfold ValidDT; infer_instance

/-- Seconds since the calendar epoch of the instant a datetime denotes
(wall-clock seconds minus the UTC offset; a naive datetime counts as
offset 0 for comparison purposes). -/
def timestamp (t : PyDateTime) : Int :=
  (daysFromCivil t.year t.month t.day : Int) * 86400 +
    (t.hour : Int) * 3600 + (t.minute : Int) * 60 + (t.second : Int) -
    60 * t.offset.getD 0

/-- The calendar day after a valid date. -/
def nextDay (t : PyDateTime) : PyDateTime :=
  if t.day < daysInMonth t.year t.month then
    { t with day := t.day + 1 }
  else if t.month < 12 then
    { t with month := t.month + 1, day := 1 }
  else
    { t with year := t.year + 1, month := 1, day := 1 }

/-- Python `dt + timedelta(hours=1)`: wall-clock fields advance by one hour
with calendar carry; `none` models the `OverflowError` past `datetime.max`
(9999-12-31). -/
def addHour (t : PyDateTime) : Option PyDateTime :=
  if t.hour < 23 then
    some { t with hour := t.hour + 1 }
  else if t.year = 9999 ∧ t.month = 12 ∧ t.day = 31 then
    none
  else
    some { nextDay t with hour := 0 }

/-- Value of a two-digit ASCII number. -/
def twoDigits (a b : Char) : Option Nat :=
  if a.isDigit ∧ b.isDigit then
    some ((a.toNat - '0'.toNat) * 10 + (b.toNat - '0'.toNat))
  else
    none

/-- The optional trailing UTC offset of an ISO string: empty for a naive
datetime, or `±HH:MM` within the `timezone` constructor's range. -/
def parseOffset (rest : List Char) : Option (Option Int) :=
  match rest with
  | [] => some none
  | sign :: o1 :: o2 :: ':' :: o3 :: o4 :: [] =>
    if sign = '+' ∨ sign = '-' then
      match twoDigits o1 o2, twoDigits o3 o4 with
      | some oh, some om =>
        if oh ≤ 23 ∧ om ≤ 59 then
          some (some (if sign = '-' then -((oh * 60 + om : Nat) : Int)
                      else ((oh * 60 + om : Nat) : Int)))
        else none
      | _, _ => none
    else none
  | _ => none

/-- Model of `datetime.fromisoformat` on the layout the prompt mandates:
`YYYY-MM-DDTHH:MM:SS` followed by an optional `±HH:MM` offset.  Field
ranges are checked exactly as the `datetime` constructor does; other
layouts Python would accept are outside the modelled subset. -/
def parseIso (s : List Char) : Option PyDateTime :=
  match s with
  | y1 :: y2 :: y3 :: y4 :: '-' :: m1 :: m2 :: '-' :: d1 :: d2 :: 'T' ::
    h1 :: h2 :: ':' :: mi1 :: mi2 :: ':' :: s1 :: s2 :: rest =>
    match twoDigits y1 y2, twoDigits y3 y4, twoDigits m1 m2, twoDigits d1 d2,
          twoDigits h1 h2, twoDigits mi1 mi2, twoDigits s1 s2 with
    | some yH, some yL, some mo, some da, some ho, some mi, some se =>
      match parseOffset rest with
      | none => none
      | some off =>
        let t : PyDateTime :=
          { year := yH * 100 + yL, month := mo, day := da,
            hour := ho, minute := mi, second := se, offset := off }
        if ValidDT t then some t else none
    | _, _, _, _, _, _, _ => none
  | _ => none

/-- The ASCII digit for `n < 10`. -/
def digitChar (n : Nat) : Char :=
  Char.ofNat ('0'.toNat + n)

/-- Two-digit zero-padded rendering. -/
def pad2 (n : Nat) : List Char :=
  [digitChar (n / 10 % 10), digitChar (n % 10)]

/-- Four-digit zero-padded rendering. -/
def pad4 (n : Nat) : List Char :=
  [digitChar (n / 1000 % 10), digitChar (n / 100 % 10),
   digitChar (n / 10 % 10), digitChar (n % 10)]

/-- Model of `datetime.isoformat()` at second precision: the offset is
rendered as `±HH:MM` for an aware datetime and omitted for a naive one. -/
def isoFormat (t : PyDateTime) : List Char :=
  pad4 t.year ++ '-' :: pad2 t.month ++ '-' :: pad2 t.day ++ 'T' ::
    pad2 t.hour ++ ':' :: pad2 t.minute ++ ':' :: pad2 t.second ++
    (match t.offset with
     | none => []
     | some off =>
       (if off < 0 then '-' else '+') ::
         pad2 (off.natAbs / 60) ++ ':' :: pad2 (off.natAbs % 60))

/-! ### Shared pipeline pieces

These model lines that are textually identical in the two entry points. -/

/-- What one call of `requests.post` + envelope navigation can yield:
a transport-level failure (`requests.RequestException`, which includes a
non-2xx status raised by `raise_for_status`), a response whose envelope
lacks the expected nested fields (`KeyError`/`IndexError`, and likewise a
non-JSON HTTP body), or the model's extracted text. -/
inductive AttemptOutcome where
  | transportError : AttemptOutcome
  | badEnvelope : AttemptOutcome
  | ok (text : List Char) : AttemptOutcome

/-- A Python call boundary: either a returned value or an uncaught
exception, identified by its class name. -/
inductive PyResult where
  | ok (v : Json) : PyResult
  | raised (exc : String) : PyResult

/-- Observable behaviour of one `get_events_from_email` call: its outcome,
how many HTTP requests it issued, and the sleeps it performed (seconds). -/
structure RunTrace where
  result : PyResult
  requests : Nat
  sleeps : List Nat

/-- The post-cleaning tail shared by both variants:
`if not clean: return []`, then `json.loads`, then
`event_data.get("eventos", [])`.  A `json.JSONDecodeError` is caught (the
enclosing handlers return `[]`), but `.get` on a non-dict value raises an
uncaught `AttributeError`. -/
def processCleaned (clean : List Char) : PyResult :=
  if clean = [] then .ok (.arr [])
  else
    match jsonLoads clean with
    | none => .ok (.arr [])
    | some (.obj kvs) => .ok ((pyDictGet kvs "eventos".data).getD (.arr []))
    | some _ => .raised "AttributeError"

/-- The orchestrators' per-candidate filter, identical in both entry
points: `'start_datetime' in event and 'summary' in event`.  Key presence
is all that Python's `in` tests; the bound values are not inspected. -/
def validEvent (ev : List (List Char × Json)) : Bool :=
  pyDictHas ev "start_datetime".data && pyDictHas ev "summary".data

/-- Truthiness of `not EMAIL_USER`: true when the variable is unset
(`os.getenv` returned `None`) or holds the empty string. -/
def pyFalsy (o : Option (List Char)) : Bool :=
  match o with
  | none => true
  | some s => s.isEmpty

/-- One normalized message as assembled by `fetch_emails`. -/
structure NormalizedEmail where
  from_ : List Char
  to_ : List Char
  subject : List Char
  body : List Char

/-- Observable behaviour of one `fetch_emails` call: its return value and
whether an IMAP connection was attempted. -/
structure FetchTrace where
  emails : List NormalizedEmail
  connected : Bool

/-- The payload handed to `service.events().insert`. -/
structure EventPayload where
  summary : Json
  location : List Char
  description : Json
  startDateTime : Json
  startTimeZone : List Char
  endDateTime : Json
  endTimeZone : List Char

/-- The fixed named time zone of both payload endpoints. -/
def tzSaoPaulo : List Char := "America/Sao_Paulo".data

/-- Outcome of one `create_calendar_event` call: the returned boolean and
the payload the insert call was issued with (`none` when an exception
fired before the payload was complete). -/
structure CreateTrace where
  ok : Bool
  payload : Option EventPayload

end Agendador

namespace Agendator

open Agendador

/-- `Agendator.py` response cleaning: strip, then remove every occurrence
of the two fence markers anywhere in the text
(`raw.strip().replace('```json', '').replace('```', '')`). -/
def cleanResponse (raw : List Char) : List Char :=
  pyReplace (pyReplace (pyStrip raw) "```json".data []) "```".data []

/-- `Agendator.py::get_events_from_email`: a single request (no retry
loop); `requests.RequestException`, envelope shape errors and JSON decode
errors are caught and yield `[]`. -/
def get_events_from_email (outcomes : Nat → AttemptOutcome) : RunTrace :=
  match outcomes 0 with
  | .transportError => ⟨.ok (.arr []), 1, []⟩
  | .badEnvelope => ⟨.ok (.arr []), 1, []⟩
  | .ok text => ⟨processCleaned (cleanResponse text), 1, []⟩

/-- `Agendator.py::fetch_emails`: no credential guard — the connection and
`login` run inside the `try`, so absent or empty credentials still attempt
a connection, whose failure is caught and yields `[]`.  `conn` is the
mailbox collaborator's outcome for the remainder of the block. -/
def fetch_emails (user pw : Option (List Char))
    (conn : Except Unit (List NormalizedEmail)) : FetchTrace :=
  if pyFalsy user || pyFalsy pw then { emails := [], connected := true }
  else
    match conn with
    | .error _ => { emails := [], connected := true }
    | .ok es => { emails := es, connected := true }

/-- `Agendator.py::create_calendar_event`: the payload carries the raw
`start_datetime` value as **both** `start.dateTime` and `end.dateTime` —
no end-time derivation is performed in this variant.  `credsOk` is the
service-account/build collaborator outcome and `insertOk` the insert
call's; any exception is caught and reported as `False`. -/
def create_calendar_event (ev : List (List Char × Json))
    (credsOk insertOk : Bool) : CreateTrace :=
  match pyDictGet ev "summary".data with
  | none => ⟨false, none⟩
  | some sv =>
    if credsOk then
      match pyDictGet ev "start_datetime".data with
      | none => ⟨false, none⟩
      | some dv =>
        let payload : EventPayload :=
          { summary := sv, location := "Remoto".data, description := sv,
            startDateTime := dv, startTimeZone := tzSaoPaulo,
            endDateTime := dv, endTimeZone := tzSaoPaulo }
        if insertOk then ⟨true, some payload⟩ else ⟨false, some payload⟩
    else ⟨false, none⟩

end Agendator

namespace AgendatorActions

open Agendador

/-- `AgendatorActions.py` response cleaning: strip, remove one leading
`` ```json `` fence (`[7:]`) and one trailing `` ``` `` fence (`[:-3]`)
when present, then strip again. -/
def cleanResponse (raw : List Char) : List Char :=
  let t := pyStrip raw
  let t := if "```json".data.isPrefixOf t then t.drop 7 else t
  let t := if "```".data.isSuffixOf t then dropLast 3 t else t
  pyStrip t

/-- `max_retries = 2`. -/
def max_retries : Nat := 2

/-- The retry loop of `AgendatorActions.py::get_events_from_email`, with
`left` the remaining iterations of `for attempt in range(max_retries)`.
A transport failure sleeps 5 seconds and retries while a later attempt
remains, else returns `[]`; envelope/decode errors return `[]` at once.
Falling off the loop is the final `return []`. -/
def getEventsGo (outcomes : Nat → AttemptOutcome) (attempt : Nat) :
    Nat → RunTrace
  | 0 => ⟨.ok (.arr []), 0, []⟩
  | left + 1 =>
    match outcomes attempt with
    | .transportError =>
      if left = 0 then ⟨.ok (.arr []), 1, []⟩
      else
        let rest := getEventsGo outcomes (attempt + 1) left
        ⟨rest.result, rest.requests + 1, 5 :: rest.sleeps⟩
    | .badEnvelope => ⟨.ok (.arr []), 1, []⟩
    | .ok text => ⟨processCleaned (cleanResponse text), 1, []⟩

/-- `AgendatorActions.py::get_events_from_email`. -/
def get_events_from_email (outcomes : Nat → AttemptOutcome) : RunTrace :=
  getEventsGo outcomes 0 max_retries

/-- `AgendatorActions.py::fetch_emails`: absent or empty credentials are
rejected up front (`if not EMAIL_USER or not EMAIL_PASS: return []`)
before any connection is opened. -/
def fetch_emails (user pw : Option (List Char))
    (conn : Except Unit (List NormalizedEmail)) : FetchTrace :=
  if pyFalsy user || pyFalsy pw then { emails := [], connected := false }
  else
    match conn with
    | .error _ => { emails := [], connected := true }
    | .ok es => { emails := es, connected := true }

/-- `AgendatorActions.py::create_calendar_event`: parses `start_datetime`
with `fromisoformat`, derives `end = start + timedelta(hours=1)` and
renders it with `isoformat()`.  A missing `summary` key (`KeyError` in the
log line), a failed credentials load, a missing or non-string
`start_datetime` (`KeyError`/`TypeError`), an unparsable timestamp
(`ValueError`) or an overflowing addition (`OverflowError`) are all caught
by the enclosing handler and reported as `False`. -/
def create_calendar_event (ev : List (List Char × Json))
    (credsOk insertOk : Bool) : CreateTrace :=
  match pyDictGet ev "summary".data with
  | none => ⟨false, none⟩
  | some sv =>
    if credsOk then
      match pyDictGet ev "start_datetime".data with
      | some (.str s) =>
        match parseIso s with
        | none => ⟨false, none⟩
        | some d =>
          match addHour d with
          | none => ⟨false, none⟩
          | some d2 =>
            let payload : EventPayload :=
              { summary := sv, location := "Remoto".data, description := sv,
                startDateTime := .str s, startTimeZone := tzSaoPaulo,
                endDateTime := .str (isoFormat d2), endTimeZone := tzSaoPaulo }
            if insertOk then ⟨true, some payload⟩ else ⟨false, some payload⟩
      | _ => ⟨false, none⟩
    else ⟨false, none⟩

/-- One line of `main`'s per-event report: an event either reached
`create_calendar_event` (with its boolean outcome) or was discarded with
the malformed-event warning. -/
inductive BatchEntry where
  | attempted (ev : List (List Char × Json)) (ok : Bool) : BatchEntry
  | warned (ev : List (List Char × Json)) : BatchEntry

/-- The candidate a batch entry reports on. -/
def BatchEntry.event : BatchEntry → List (List Char × Json)
  | .attempted ev _ => ev
  | .warned ev => ev

/-- The inner loop of `main` over one email's extracted events, indexed so
the calendar collaborator's outcome (`credsOk`, `insertOk`) can differ per
event. -/
def runBatchFrom (oracle : Nat → Bool × Bool) :
    Nat → List (List (List Char × Json)) → List BatchEntry
  | _, [] => []
  | i, ev :: rest =>
    (if validEvent ev then
       .attempted ev (create_calendar_event ev (oracle i).1 (oracle i).2).ok
     else .warned ev) :: runBatchFrom oracle (i + 1) rest

/-- `AgendatorActions.py::main`'s event loop for one email. -/
def runBatch (events : List (List (List Char × Json)))
    (oracle : Nat → Bool × Bool) : List BatchEntry :=
  runBatchFrom oracle 0 events

/-! ### Prompt builder -/

/-- A piece of a Python format string: literal text, or a `{name}`
replacement field. -/
inductive TemplateSeg where
  | lit (s : List Char) : TemplateSeg
  | field (name : String) : TemplateSeg

/-- The template text before the spliced current date: the three leading
source string literals, with the doubled braces of the inline JSON example
already resolved to the literal braces `str.format` leaves in place. -/
def tmplHead : List Char :=
  ("Abaixo está o conteúdo de um e-mail. Verifique se há possíveis reuniões, eventos, tarefas, entregas ou trabalhos que possam ser agendados. Somente considere se houver um horário e/ou dia especificado." ++
   "Se houver, responda SOMENTE com um objeto JSON contendo uma lista de eventos. Cada evento deve ter \x27start_datetime\x27 (formato \x27YYYY-MM-DDTHH:MM:SS-03:00\x27) e \x27summary\x27 (descrição). " ++
   "Se não houver eventos, responda com um JSON com uma lista vazia: \x7b\"eventos\": []\x7d. " ++
   "Considere a data de hoje como: ").data

/-- The literal text between the spliced date and the `{de}` field. -/
def tmplAfterDate : List Char := ". Segue o e-mail:\n\nDe: ".data

/-- The literal text between the `{de}` and `{para}` fields. -/
def tmplPara : List Char := "\nPara: ".data

/-- The literal text between the `{para}` and `{assunto}` fields. -/
def tmplAssunto : List Char := "\nAssunto: ".data

/-- The literal text between the `{assunto}` and `{conteudo}` fields. -/
def tmplConteudo : List Char := "\n\nConteúdo:\n".data

/-- `GEMINI_PROMPT_TEMPLATE`, segmented as `str.format` reads it: the
doubled braces of the inline JSON example are the escaped literal braces
`\x7b"eventos": []\x7d`, not a replacement field, and the current date is
spliced between two literal parts exactly as the source concatenates it. -/
def GEMINI_PROMPT_TEMPLATE (today : List Char) : List TemplateSeg :=
  [.lit tmplHead,
   .lit today,
   .lit tmplAfterDate,
   .field "de",
   .lit tmplPara,
   .field "para",
   .lit tmplAssunto,
   .field "assunto",
   .lit tmplConteudo,
   .field "conteudo"]

/-- `str.format` over a segmented template: a replacement field missing
from the keyword arguments is Python's `KeyError` (`none`); when every
field is bound the fully substituted text comes back. -/
def renderTemplate : List TemplateSeg → (String → Option (List Char)) →
    Option (List Char)
  | [], _ => some []
  | .lit s :: rest, b => (renderTemplate rest b).map (fun t => s ++ t)
  | .field n :: rest, b =>
    match b n with
    | none => none
    | some v => (renderTemplate rest b).map (fun t => v ++ t)

/-- The keyword arguments of the `.format(...)` call in
`get_events_from_email`. -/
def promptBindings (de para assunto conteudo : List Char) :
    String → Option (List Char) := fun n =>
  if n = "de" then some de
  else if n = "para" then some para
  else if n = "assunto" then some assunto
  else if n = "conteudo" then some conteudo
  else none

/-- The prompt `get_events_from_email` submits, as a function of the
startup date and the four normalized-email fields. -/
def buildPrompt (today de para assunto conteudo : List Char) :
    Option (List Char) :=
  renderTemplate (GEMINI_PROMPT_TEMPLATE today)
    (promptBindings de para assunto conteudo)

/-- The replacement-field names of a segmented template, in order. -/
def fieldsOf (segs : List TemplateSeg) : List String :=
  segs.foldr (fun seg acc =>
    match seg with
    | .lit _ => acc
    | .field n => n :: acc) []

end AgendatorActions

namespace Agendador

/-- `needle` occurs contiguously inside `hay`. -/
def containsSub (needle hay : List Char) : Prop :=
  ∃ l r, hay = l ++ (needle ++ r)

/-! ### Dictionary lemmas -/

lemma foldlGet_isSome (k : List Char) :
    ∀ (ms : List (List Char × Json)) (acc : Option Json),
      (ms.foldl (fun acc p => if p.1 = k then some p.2 else acc) acc).isSome
        = (acc.isSome || ms.any (fun p => p.1 = k))
  | [], acc => by simp
  | p :: ms, acc => by
    rw [List.foldl_cons, foldlGet_isSome k ms]
    by_cases h : p.1 = k <;> simp [h, Bool.or_comm, Bool.or_assoc, Bool.or_left_comm]

lemma pyDictGet_isSome (ms : List (List Char × Json)) (k : List Char) :
    (pyDictGet ms k).isSome = pyDictHas ms k := by
  rw [pyDictGet, pyDictHas, foldlGet_isSome]
  simp

/-! ### Datetime arithmetic lemmas -/

lemma dfc_next1 (y : Nat) : daysFromCivil y 2 1 = daysFromCivil y 1 31 + 1 := by
  norm_num [daysFromCivil]

lemma dfc_feb29 (y : Nat) (h1 : 1 ≤ y) (hL : isLeap y = true) :
    daysFromCivil y 3 1 = daysFromCivil y 2 29 + 1 := by
  simp only [isLeap, Bool.or_eq_true, Bool.and_eq_true, decide_eq_true_eq] at hL
  norm_num [daysFromCivil]
  omega

lemma dfc_feb28 (y : Nat) (h1 : 1 ≤ y) (hL : isLeap y = false) :
    daysFromCivil y 3 1 = daysFromCivil y 2 28 + 1 := by
  simp only [isLeap, Bool.or_eq_false_iff, Bool.and_eq_false_iff,
    decide_eq_false_iff_not] at hL
  norm_num [daysFromCivil]
  omega

lemma dfc_next3 (y : Nat) : daysFromCivil y 4 1 = daysFromCivil y 3 31 + 1 := by
  norm_num [daysFromCivil]

lemma dfc_next4 (y : Nat) : daysFromCivil y 5 1 = daysFromCivil y 4 30 + 1 := by
  norm_num [daysFromCivil]

lemma dfc_next5 (y : Nat) : daysFromCivil y 6 1 = daysFromCivil y 5 31 + 1 := by
  norm_num [daysFromCivil]

lemma dfc_next6 (y : Nat) : daysFromCivil y 7 1 = daysFromCivil y 6 30 + 1 := by
  norm_num [daysFromCivil]

lemma dfc_next7 (y : Nat) : daysFromCivil y 8 1 = daysFromCivil y 7 31 + 1 := by
  norm_num [daysFromCivil]

lemma dfc_next8 (y : Nat) : daysFromCivil y 9 1 = daysFromCivil y 8 31 + 1 := by
  norm_num [daysFromCivil]

lemma dfc_next9 (y : Nat) : daysFromCivil y 10 1 = daysFromCivil y 9 30 + 1 := by
  norm_num [daysFromCivil]

lemma dfc_next10 (y : Nat) : daysFromCivil y 11 1 = daysFromCivil y 10 31 + 1 := by
  norm_num [daysFromCivil]

lemma dfc_next11 (y : Nat) : daysFromCivil y 12 1 = daysFromCivil y 11 30 + 1 := by
  norm_num [daysFromCivil]

lemma dfc_next12 (y : Nat) :
    daysFromCivil (y + 1) 1 1 = daysFromCivil y 12 31 + 1 := by
  norm_num [daysFromCivil]

set_option maxHeartbeats 2000000 in
lemma daysFromCivil_nextDay (t : PyDateTime) (h : ValidDT t) :
    daysFromCivil (nextDay t).year (nextDay t).month (nextDay t).day
      = daysFromCivil t.year t.month t.day + 1 := by
  obtain ⟨h1, h2, h3, h4, h5, h6, _, _, _⟩ := h
  rw [nextDay]
  by_cases hd : t.day < daysInMonth t.year t.month
  · rw [if_pos hd]
    simp only [daysFromCivil]
    by_cases hm : t.month ≤ 2 <;> simp only [hm, if_true, if_false] <;> omega
  · have hd' : t.day = daysInMonth t.year t.month := le_antisymm h6 (not_lt.mp hd)
    rw [if_neg hd]
    by_cases hm12 : t.month < 12
    · rw [if_pos hm12]
      dsimp only
      have hmc : t.month = 1 ∨ t.month = 2 ∨ t.month = 3 ∨ t.month = 4 ∨
          t.month = 5 ∨ t.month = 6 ∨ t.month = 7 ∨ t.month = 8 ∨
          t.month = 9 ∨ t.month = 10 ∨ t.month = 11 := by omega
      rcases hmc with hM | hM | hM | hM | hM | hM | hM | hM | hM | hM | hM
      · rw [hM] at hd' ⊢
        simp only [daysInMonth] at hd'
        rw [hd']
        exact dfc_next1 t.year
      · rw [hM] at hd' ⊢
        simp only [daysInMonth] at hd'
        by_cases hL : isLeap t.year = true
        · simp only [hL, if_true] at hd'
          rw [hd']
          exact dfc_feb29 t.year h1 hL
        · rw [Bool.not_eq_true] at hL
          simp only [hL, if_false] at hd'
          rw [hd']
          exact dfc_feb28 t.year h1 hL
      · rw [hM] at hd' ⊢
        simp only [daysInMonth] at hd'
        rw [hd']
        exact dfc_next3 t.year
      · rw [hM] at hd' ⊢
        simp only [daysInMonth] at hd'
        rw [hd']
        exact dfc_next4 t.year
      · rw [hM] at hd' ⊢
        simp only [daysInMonth] at hd'
        rw [hd']
        exact dfc_next5 t.year
      · rw [hM] at hd' ⊢
        simp only [daysInMonth] at hd'
        rw [hd']
        exact dfc_next6 t.year
      · rw [hM] at hd' ⊢
        simp only [daysInMonth] at hd'
        rw [hd']
        exact dfc_next7 t.year
      · rw [hM] at hd' ⊢
        simp only [daysInMonth] at hd'
        rw [hd']
        exact dfc_next8 t.year
      · rw [hM] at hd' ⊢
        simp only [daysInMonth] at hd'
        rw [hd']
        exact dfc_next9 t.year
      · rw [hM] at hd' ⊢
        simp only [daysInMonth] at hd'
        rw [hd']
        exact dfc_next10 t.year
      · rw [hM] at hd' ⊢
        simp only [daysInMonth] at hd'
        rw [hd']
        exact dfc_next11 t.year
    · have hm : t.month = 12 := by omega
      rw [if_neg hm12]
      dsimp only
      rw [hm] at hd' ⊢
      simp only [daysInMonth] at hd'
      rw [hd']
      exact dfc_next12 t.year

lemma nextDay_fields (t : PyDateTime) :
    (nextDay t).minute = t.minute ∧ (nextDay t).second = t.second ∧
      (nextDay t).offset = t.offset := by
  rw [nextDay]
  split_ifs <;> exact ⟨rfl, rfl, rfl⟩

lemma addHour_spec (t t2 : PyDateTime) (h : ValidDT t)
    (ha : addHour t = some t2) :
    timestamp t2 = timestamp t + 3600 ∧ t2.offset = t.offset := by
  have h23 : t.hour ≤ 23 := h.2.2.2.2.2.2.1
  rw [addHour] at ha
  by_cases hh : t.hour < 23
  · rw [if_pos hh] at ha
    cases ha
    refine ⟨?_, rfl⟩
    simp only [timestamp]
    omega
  · rw [if_neg hh] at ha
    have hh23 : t.hour = 23 := by omega
    split_ifs at ha
    cases ha
    have hdays := daysFromCivil_nextDay t h
    obtain ⟨hmi, hse, hof⟩ := nextDay_fields t
    refine ⟨?_, hof⟩
    simp only [timestamp, hmi, hse, hof]
    rw [show ({ nextDay t with hour := 0 } : PyDateTime).year = (nextDay t).year from rfl]
    rw [show ({ nextDay t with hour := 0 } : PyDateTime).month = (nextDay t).month from rfl]
    rw [show ({ nextDay t with hour := 0 } : PyDateTime).day = (nextDay t).day from rfl]
    rw [hdays]
    omega

lemma parseIso_valid (s : List Char) (t : PyDateTime)
    (h : parseIso s = some t) : ValidDT t := by
  unfold parseIso at h
  split at h <;> try exact Option.noConfusion h
  split at h <;> try exact Option.noConfusion h
  split at h <;> try exact Option.noConfusion h
  dsimp only at h
  split at h
  · cases h
    assumption
  · exact Option.noConfusion h

lemma pyDictGet_exists_iff_has (ms : List (List Char × Json)) (k : List Char) :
    (∃ v, pyDictGet ms k = some v) ↔ pyDictHas ms k = true := by
  rw [← pyDictGet_isSome]
  exact ⟨fun ⟨v, hv⟩ => by simp [hv], fun h => by
    cases hg : pyDictGet ms k with
    | none => simp [hg] at h
    | some v => exact ⟨v, rfl⟩⟩

end Agendador

/-! ## Claim theorems -/

open Agendador

/-- C3, counterexample: a candidate carrying `start_datetime` with a null
value passes the orchestrators' filter (`'start_datetime' in event and
'summary' in event` tests key presence only) and is handed to
`create_calendar_event`, contradicting the claim that such a candidate is
discarded with a warning. -/
theorem claim_C3_counterexample :
    validEvent [("start_datetime".data, Json.null),
                ("summary".data, Json.str "x".data)] = true ∧
    pyDictGet [("start_datetime".data, Json.null),
               ("summary".data, Json.str "x".data)] "start_datetime".data
      = some Json.null ∧
    AgendatorActions.runBatch
        [[("start_datetime".data, Json.null),
          ("summary".data, Json.str "x".data)]] (fun _ => (true, true))
      = [.attempted [("start_datetime".data, Json.null),
                     ("summary".data, Json.str "x".data)] false] :=
  ⟨rfl, rfl, rfl⟩

/-- C3, amended: the orchestrators accept a raw candidate mapping exactly
when it carries both a `start_datetime` key and a `summary` key, whatever
the bound values (null included); value inspection is deferred to the
materializer. -/
theorem claim_C3_amended (ev : List (List Char × Json)) :
    validEvent ev = true ↔
      ((∃ v, pyDictGet ev "start_datetime".data = some v) ∧
       (∃ v, pyDictGet ev "summary".data = some v)) := by
  rw [validEvent, Bool.and_eq_true,
    pyDictGet_exists_iff_has, pyDictGet_exists_iff_has]

/-- C8, counterexample: with `EMAIL_USER` unset, the continuous-loop
variant still attempts the IMAP connection (its credential use sits inside
the `try`), contradicting the claim that absent credentials short-circuit
without a connection attempt. -/
theorem claim_C8_counterexample :
    Agendator.fetch_emails none (some "pw".data)
        (.ok [{ from_ := [], to_ := [], subject := [], body := [] }])
      = { emails := [], connected := true } :=
  rfl

/-- C8, amended: with either mailbox credential absent (unset or empty),
the single-shot variant returns zero results without attempting a
connection, while the continuous-loop variant attempts the connection and
ends with zero results through its exception handler. -/
theorem claim_C8_amended (user pw : Option (List Char))
    (conn : Except Unit (List NormalizedEmail))
    (h : (pyFalsy user || pyFalsy pw) = true) :
    AgendatorActions.fetch_emails user pw conn = { emails := [], connected := false } ∧
    Agendator.fetch_emails user pw conn = { emails := [], connected := true } := by
  constructor <;> simp [AgendatorActions.fetch_emails, Agendator.fetch_emails, h]

/-- Witness for C8 at a concrete input: user unset, password `"pw"`. -/
theorem claim_C8_witness :
    (pyFalsy none || pyFalsy (some "pw".data)) = true ∧
    AgendatorActions.fetch_emails none (some "pw".data) (.ok [])
      = { emails := [], connected := false } ∧
    Agendator.fetch_emails none (some "pw".data) (.ok [])
      = { emails := [], connected := true } :=
  ⟨rfl, (claim_C8_amended none (some "pw".data) (.ok []) rfl).1,
    (claim_C8_amended none (some "pw".data) (.ok []) rfl).2⟩

namespace AgendatorActions

/-- The per-candidate outcome `main`'s loop produces at index `i`:
validated candidates reach `create_calendar_event` with that event's own
collaborator outcome, the rest get the warning. -/
def batchStep (oracle : Nat → Bool × Bool) (p : Nat × List (List Char × Json)) :
    BatchEntry :=
  if validEvent p.2 then
    .attempted p.2 (create_calendar_event p.2 (oracle p.1).1 (oracle p.1).2).ok
  else .warned p.2

lemma runBatchFrom_eq (oracle : Nat → Bool × Bool) :
    ∀ (k : Nat) (events : List (List (List Char × Json))),
      runBatchFrom oracle k events = (events.enumFrom k).map (batchStep oracle)
  | _, [] => rfl
  | k, ev :: rest => by
    rw [runBatchFrom, List.enumFrom_cons, List.map_cons,
      runBatchFrom_eq oracle (k + 1) rest]
    rfl

end AgendatorActions

/-- C9: the per-event report of `main`'s inner loop is exactly one entry
per extracted candidate, in order, each computed from that candidate and
its own calendar-collaborator outcome alone — so a create-event call
raising (reported as a `false` entry) leaves every sibling candidate
attempted.  In particular no oracle of failures can shorten the report. -/
theorem claim_C9 (events : List (List (List Char × Json)))
    (oracle : Nat → Bool × Bool) :
    AgendatorActions.runBatch events oracle
        = events.enum.map (AgendatorActions.batchStep oracle) ∧
    (AgendatorActions.runBatch events oracle).map
        AgendatorActions.BatchEntry.event = events := by
  have h := AgendatorActions.runBatchFrom_eq oracle 0 events
  refine ⟨h, ?_⟩
  rw [AgendatorActions.runBatch, h]
  rw [List.map_map]
  have : AgendatorActions.BatchEntry.event ∘ AgendatorActions.batchStep oracle
      = Prod.snd := by
    funext p
    rw [Function.comp_apply, AgendatorActions.batchStep]
    by_cases hv : validEvent p.2 <;> simp [hv, AgendatorActions.BatchEntry.event]
  rw [this]
  exact List.enumFrom_map_snd 0 events

namespace Agendador

lemma processCleaned_ok (clean : List Char)
    (h : jsonLoads clean = none ∨ ∃ kvs, jsonLoads clean = some (.obj kvs)) :
    ∃ v, processCleaned clean = .ok v := by
  rw [processCleaned]
  by_cases he : clean = []
  · exact ⟨.arr [], by simp [he]⟩
  · rcases h with h | ⟨kvs, h⟩
    · exact ⟨.arr [], by simp [he, h]⟩
    · exact ⟨(pyDictGet kvs "eventos".data).getD (.arr []), by simp [he, h]⟩

end Agendador

namespace AgendatorActions

open Agendador

lemma getEventsGo_ok (outcomes : Nat → AttemptOutcome) (attempt left : Nat)
    (text : List Char) (h : outcomes attempt = .ok text) :
    getEventsGo outcomes attempt (left + 1)
      = ⟨processCleaned (cleanResponse text), 1, []⟩ := by
  rw [getEventsGo, h]

lemma getEventsGo_benv (outcomes : Nat → AttemptOutcome) (attempt left : Nat)
    (h : outcomes attempt = .badEnvelope) :
    getEventsGo outcomes attempt (left + 1) = ⟨.ok (.arr []), 1, []⟩ := by
  rw [getEventsGo, h]

lemma getEventsGo_transport_last (outcomes : Nat → AttemptOutcome) (attempt : Nat)
    (h : outcomes attempt = .transportError) :
    getEventsGo outcomes attempt 1 = ⟨.ok (.arr []), 1, []⟩ := by
  rw [show (1 : Nat) = 0 + 1 from rfl, getEventsGo, h]
  simp

lemma getEventsGo_transport_step (outcomes : Nat → AttemptOutcome)
    (attempt left : Nat) (h : outcomes attempt = .transportError) :
    getEventsGo outcomes attempt (left + 2) =
      ⟨(getEventsGo outcomes (attempt + 1) (left + 1)).result,
       (getEventsGo outcomes (attempt + 1) (left + 1)).requests + 1,
       5 :: (getEventsGo outcomes (attempt + 1) (left + 1)).sleeps⟩ := by
  rw [show left + 2 = (left + 1) + 1 from rfl, getEventsGo, h]
  simp

lemma get_events_eq (outcomes : Nat → AttemptOutcome) :
    get_events_from_email outcomes = getEventsGo outcomes 0 2 := rfl

end AgendatorActions

/-- C2, counterexample: an inference response whose fence-stripped body is
`[]` parses to a top-level JSON array, on which `event_data.get` raises an
`AttributeError` that no handler in either variant catches — the
Extraction Client does raise past its boundary. -/
theorem claim_C2_counterexample :
    (AgendatorActions.get_events_from_email (fun _ => .ok "[]".data)).result
        = .raised "AttributeError" ∧
    (Agendator.get_events_from_email (fun _ => .ok "[]".data)).result
        = .raised "AttributeError" :=
  ⟨rfl, rfl⟩

/-- C2, amended: the Extraction Client returns a value without raising for
every response whose cleaned text fails to parse as JSON or parses to a
JSON object (dict); a cleaned text parsing to any non-object JSON value
triggers an uncaught `AttributeError` from `event_data.get`, and an
object's `eventos` value is returned as-is, list or not. -/
theorem claim_C2_amended (outcomes : Nat → AttemptOutcome)
    (hB : ∀ i text, i < AgendatorActions.max_retries → outcomes i = .ok text →
      jsonLoads (AgendatorActions.cleanResponse text) = none ∨
      ∃ kvs, jsonLoads (AgendatorActions.cleanResponse text) = some (.obj kvs))
    (hA : ∀ text, outcomes 0 = .ok text →
      jsonLoads (Agendator.cleanResponse text) = none ∨
      ∃ kvs, jsonLoads (Agendator.cleanResponse text) = some (.obj kvs)) :
    (∃ v, (AgendatorActions.get_events_from_email outcomes).result = .ok v) ∧
    (∃ v, (Agendator.get_events_from_email outcomes).result = .ok v) := by
  constructor
  · rw [AgendatorActions.get_events_eq]
    cases h0 : outcomes 0 with
    | transportError =>
      rw [AgendatorActions.getEventsGo_transport_step outcomes 0 0 h0]
      cases h1 : outcomes 1 with
      | transportError =>
        rw [AgendatorActions.getEventsGo_transport_last outcomes 1 h1]
        exact ⟨.arr [], rfl⟩
      | badEnvelope =>
        rw [AgendatorActions.getEventsGo_benv outcomes 1 0 h1]
        exact ⟨.arr [], rfl⟩
      | ok text =>
        rw [AgendatorActions.getEventsGo_ok outcomes 1 0 text h1]
        exact processCleaned_ok _ (hB 1 text (by decide) h1)
    | badEnvelope =>
      rw [AgendatorActions.getEventsGo_benv outcomes 0 1 h0]
      exact ⟨.arr [], rfl⟩
    | ok text =>
      rw [AgendatorActions.getEventsGo_ok outcomes 0 1 text h0]
      exact processCleaned_ok _ (hB 0 text (by decide) h0)
  · rw [Agendator.get_events_from_email]
    cases h0 : outcomes 0 with
    | transportError => exact ⟨.arr [], rfl⟩
    | badEnvelope => exact ⟨.arr [], rfl⟩
    | ok text => exact processCleaned_ok _ (hA text h0)

/-- Witness for C2 at a concrete input: every attempt answers with the
fenced empty-list document. -/
theorem claim_C2_witness :
    (∃ v, (AgendatorActions.get_events_from_email
        (fun _ => .ok "```json\n\x7b\"eventos\": []\x7d\n```".data)).result = .ok v) ∧
    (∃ v, (Agendator.get_events_from_email
        (fun _ => .ok "```json\n\x7b\"eventos\": []\x7d\n```".data)).result = .ok v) := by
  refine claim_C2_amended _ ?_ ?_
  · intro i text _ h
    cases h
    exact .inr ⟨[("eventos".data, .arr [])], rfl⟩
  · intro text h
    cases h
    exact .inr ⟨[("eventos".data, .arr [])], rfl⟩

/-- C4, counterexample: for the parsed response object `{"eventos": 5}`
the client returns the number `5` — the value at `eventos` is returned
even though it is not list-typed, where the claim requires the empty
sequence. -/
theorem claim_C4_counterexample :
    (AgendatorActions.get_events_from_email
        (fun _ => .ok "\x7b\"eventos\": 5\x7d".data)).result = .ok (.num 5) ∧
    (Agendator.get_events_from_email
        (fun _ => .ok "\x7b\"eventos\": 5\x7d".data)).result = .ok (.num 5) ∧
    Json.num 5 ≠ .arr [] :=
  ⟨rfl, rfl, fun h => Json.noConfusion h⟩

/-- C4, amended: for every successfully parsed JSON response object, the
client returns the value at key `eventos` whenever the key is present —
whatever its type — and the empty list when the key is absent
(`event_data.get("eventos", [])` performs no list-type check). -/
theorem claim_C4_amended (outcomes : Nat → AttemptOutcome) (text : List Char)
    (kvsA kvsB : List (List Char × Json))
    (h0 : outcomes 0 = .ok text)
    (hA : jsonLoads (Agendator.cleanResponse text) = some (.obj kvsA))
    (hB : jsonLoads (AgendatorActions.cleanResponse text) = some (.obj kvsB)) :
    (Agendator.get_events_from_email outcomes).result
        = .ok ((pyDictGet kvsA "eventos".data).getD (.arr [])) ∧
    (AgendatorActions.get_events_from_email outcomes).result
        = .ok ((pyDictGet kvsB "eventos".data).getD (.arr [])) := by
  have hAe : Agendator.cleanResponse text ≠ [] := by
    intro he
    rw [he] at hA
    exact Option.noConfusion (hA.symm.trans rfl)
  have hBe : AgendatorActions.cleanResponse text ≠ [] := by
    intro he
    rw [he] at hB
    exact Option.noConfusion (hB.symm.trans rfl)
  constructor
  · rw [Agendator.get_events_from_email, h0]
    simp [processCleaned, hAe, hA]
  · rw [AgendatorActions.get_events_eq,
      AgendatorActions.getEventsGo_ok outcomes 0 1 text h0]
    simp [processCleaned, hBe, hB]

/-- Witness for C4 at a concrete input: a fenced object response carrying
one candidate under `eventos`. -/
theorem claim_C4_witness :
    (Agendator.get_events_from_email
        (fun _ => .ok "```json\n\x7b\"eventos\": [\x7b\"summary\": \"Sync\"\x7d]\x7d\n```".data)).result
      = .ok (.arr [.obj [("summary".data, .str "Sync".data)]]) ∧
    (AgendatorActions.get_events_from_email
        (fun _ => .ok "```json\n\x7b\"eventos\": [\x7b\"summary\": \"Sync\"\x7d]\x7d\n```".data)).result
      = .ok (.arr [.obj [("summary".data, .str "Sync".data)]]) :=
  claim_C4_amended _ _
    [("eventos".data, .arr [.obj [("summary".data, .str "Sync".data)]])]
    [("eventos".data, .arr [.obj [("summary".data, .str "Sync".data)]])]
    rfl rfl rfl

/-- C6, counterexample: the continuous-loop variant does not retry — on a
first-attempt transport failure it issues exactly one request, sleeps not
at all, and returns empty, even though a second attempt (whose outcome is
supplied here and would succeed with one candidate) was available within
the claimed bound of 2. -/
theorem claim_C6_counterexample :
    Agendator.get_events_from_email
        (fun i => if i = 0 then .transportError
                  else .ok "\x7b\"eventos\": [\x7b\"summary\": \"Sync\"\x7d]\x7d".data)
      = ⟨.ok (.arr []), 1, []⟩ ∧
    (Agendator.get_events_from_email
        (fun i => if i = 0 then .transportError
                  else .ok "\x7b\"eventos\": [\x7b\"summary\": \"Sync\"\x7d]\x7d".data)).requests
      ≠ 2 :=
  ⟨rfl, fun h => Nat.noConfusion (Nat.succ.inj h)⟩

/-- C6, amended: the single-shot variant's Extraction Client retries as
the claim states — on transport-level failure it attempts 2 requests in
total with one fixed 5-second sleep between them and, with all attempts
exhausted, returns the empty list without raising; the continuous-loop
variant instead makes a single attempt and returns the empty list at the
first transport failure, with no retry and no sleep. -/
theorem claim_C6_amended (outcomes : Nat → AttemptOutcome)
    (h0 : outcomes 0 = .transportError) (h1 : outcomes 1 = .transportError) :
    AgendatorActions.get_events_from_email outcomes = ⟨.ok (.arr []), 2, [5]⟩ ∧
    Agendator.get_events_from_email outcomes = ⟨.ok (.arr []), 1, []⟩ := by
  constructor
  · rw [AgendatorActions.get_events_eq,
      AgendatorActions.getEventsGo_transport_step outcomes 0 0 h0,
      AgendatorActions.getEventsGo_transport_last outcomes 1 h1]
  · rw [Agendator.get_events_from_email, h0]

/-- Witness for C6 at a concrete input: every attempt fails at transport
level. -/
theorem claim_C6_witness :
    AgendatorActions.get_events_from_email (fun _ => .transportError)
      = ⟨.ok (.arr []), 2, [5]⟩ ∧
    Agendator.get_events_from_email (fun _ => .transportError)
      = ⟨.ok (.arr []), 1, []⟩ :=
  claim_C6_amended (fun _ => .transportError) rfl rfl

/-- C7: a response text that survives cleaning non-empty but is not valid
JSON is terminal for that request in both variants — the result is the
empty list, exactly one request was issued and no sleep (hence no retry)
occurred. -/
theorem claim_C7 (outcomes : Nat → AttemptOutcome) (text : List Char)
    (h0 : outcomes 0 = .ok text)
    (hBe : AgendatorActions.cleanResponse text ≠ [])
    (hBp : jsonLoads (AgendatorActions.cleanResponse text) = none)
    (hAe : Agendator.cleanResponse text ≠ [])
    (hAp : jsonLoads (Agendator.cleanResponse text) = none) :
    AgendatorActions.get_events_from_email outcomes = ⟨.ok (.arr []), 1, []⟩ ∧
    Agendator.get_events_from_email outcomes = ⟨.ok (.arr []), 1, []⟩ := by
  constructor
  · rw [AgendatorActions.get_events_eq,
      AgendatorActions.getEventsGo_ok outcomes 0 1 text h0]
    simp [processCleaned, hBe, hBp]
  · rw [Agendator.get_events_from_email, h0]
    simp [processCleaned, hAe, hAp]

/-- Witness for C7 at a concrete input: the model answers `not json`. -/
theorem claim_C7_witness :
    AgendatorActions.get_events_from_email (fun _ => .ok "not json".data)
      = ⟨.ok (.arr []), 1, []⟩ ∧
    Agendator.get_events_from_email (fun _ => .ok "not json".data)
      = ⟨.ok (.arr []), 1, []⟩ :=
  claim_C7 (fun _ => .ok "not json".data) "not json".data rfl
    (by decide) rfl (by decide) rfl

namespace AgendatorActions

open Agendador

lemma buildPrompt_eq (today de para assunto conteudo : List Char) :
    buildPrompt today de para assunto conteudo =
      some (tmplHead ++ (today ++ (tmplAfterDate ++ (de ++ (tmplPara ++
        (para ++ (tmplAssunto ++ (assunto ++ (tmplConteudo ++
          (conteudo ++ [])))))))))) :=
  rfl

end AgendatorActions

/-- C5: for every normalized email — any sender, recipient, subject and
body, braces included — the `.format` call substitutes every replacement
field of `GEMINI_PROMPT_TEMPLATE` (the rendering succeeds, so no
placeholder is left unbound; the template's fields are exactly the four
bound names) and the resulting prompt embeds each of the four inputs
verbatim as a contiguous substring. -/
theorem claim_C5 (today de para assunto conteudo : List Char) :
    ∃ out,
      AgendatorActions.buildPrompt today de para assunto conteudo = some out ∧
      containsSub de out ∧ containsSub para out ∧
      containsSub assunto out ∧ containsSub conteudo out ∧
      AgendatorActions.fieldsOf (AgendatorActions.GEMINI_PROMPT_TEMPLATE today)
        = ["de", "para", "assunto", "conteudo"] := by
  refine ⟨_, AgendatorActions.buildPrompt_eq today de para assunto conteudo,
    ?_, ?_, ?_, ?_, rfl⟩
  · exact ⟨AgendatorActions.tmplHead ++ today ++ AgendatorActions.tmplAfterDate,
      AgendatorActions.tmplPara ++ (para ++ (AgendatorActions.tmplAssunto ++
        (assunto ++ (AgendatorActions.tmplConteudo ++ (conteudo ++ []))))),
      by simp [List.append_assoc]⟩
  · exact ⟨AgendatorActions.tmplHead ++ today ++ AgendatorActions.tmplAfterDate ++
        de ++ AgendatorActions.tmplPara,
      AgendatorActions.tmplAssunto ++ (assunto ++ (AgendatorActions.tmplConteudo ++
        (conteudo ++ []))),
      by simp [List.append_assoc]⟩
  · exact ⟨AgendatorActions.tmplHead ++ today ++ AgendatorActions.tmplAfterDate ++
        de ++ AgendatorActions.tmplPara ++ para ++ AgendatorActions.tmplAssunto,
      AgendatorActions.tmplConteudo ++ (conteudo ++ []),
      by simp [List.append_assoc]⟩
  · exact ⟨AgendatorActions.tmplHead ++ today ++ AgendatorActions.tmplAfterDate ++
        de ++ AgendatorActions.tmplPara ++ para ++ AgendatorActions.tmplAssunto ++
        assunto ++ AgendatorActions.tmplConteudo,
      [], by simp [List.append_assoc]⟩


/-- C1, counterexample: the continuous-loop variant's materializer submits
the raw `start_datetime` value unchanged as the payload's end dateTime —
for the spec's example start `2025-03-01T09:00:00-03:00` the submitted end
is the same instant, not one hour later.  (Payload fields in order:
summary, location, description, start dateTime, start timeZone,
end dateTime, end timeZone.) -/
theorem claim_C1_counterexample :
    Agendator.create_calendar_event
        [("start_datetime".data, .str "2025-03-01T09:00:00-03:00".data),
         ("summary".data, .str "Reuniao".data)] true true
      = ⟨true, some ⟨.str "Reuniao".data, "Remoto".data, .str "Reuniao".data,
          .str "2025-03-01T09:00:00-03:00".data, tzSaoPaulo,
          .str "2025-03-01T09:00:00-03:00".data, tzSaoPaulo⟩⟩ ∧
    Json.str "2025-03-01T09:00:00-03:00".data
      ≠ Json.str "2025-03-01T10:00:00-03:00".data := by
  refine ⟨rfl, ?_⟩
  simp only [ne_eq, Json.str.injEq]
  decide

/-- C1, amended: the single-shot variant's materializer behaves as the
claim states — for every candidate whose `start_datetime` parses (and
whose hour addition does not overflow `datetime.max`), the submitted
payload's end dateTime renders start + 1 hour: an instant exactly 3600
seconds later carrying the same UTC offset.  The continuous-loop variant
instead submits end = start (see the counterexample).  (Payload fields in
order: summary, location, description, start dateTime, start timeZone,
end dateTime, end timeZone.) -/
theorem claim_C1_amended (ev : List (List Char × Json)) (sv : Json)
    (s : List Char) (d d2 : PyDateTime) (insertOk : Bool)
    (hsum : pyDictGet ev "summary".data = some sv)
    (hstart : pyDictGet ev "start_datetime".data = some (.str s))
    (hparse : parseIso s = some d)
    (hadd : addHour d = some d2) :
    AgendatorActions.create_calendar_event ev true insertOk =
      ⟨insertOk, some ⟨sv, "Remoto".data, sv, .str s, tzSaoPaulo,
        .str (isoFormat d2), tzSaoPaulo⟩⟩ ∧
    timestamp d2 = timestamp d + 3600 ∧ d2.offset = d.offset := by
  refine ⟨?_, addHour_spec d d2 (parseIso_valid s d hparse) hadd⟩
  cases insertOk <;>
    simp [AgendatorActions.create_calendar_event, hsum, hstart, hparse, hadd]

/-- Witness for C1 at the spec's example input: the end dateTime renders
as `2025-03-01T10:00:00-03:00`, one hour later with the same offset. -/
theorem claim_C1_witness :
    AgendatorActions.create_calendar_event
        [("start_datetime".data, .str "2025-03-01T09:00:00-03:00".data),
         ("summary".data, .str "Reuniao".data)] true true
      = ⟨true, some ⟨.str "Reuniao".data, "Remoto".data, .str "Reuniao".data,
          .str "2025-03-01T09:00:00-03:00".data, tzSaoPaulo,
          .str (isoFormat ⟨2025, 3, 1, 10, 0, 0, some (-180)⟩), tzSaoPaulo⟩⟩ ∧
    isoFormat ⟨2025, 3, 1, 10, 0, 0, some (-180)⟩
      = "2025-03-01T10:00:00-03:00".data ∧
    timestamp ⟨2025, 3, 1, 10, 0, 0, some (-180)⟩
      = timestamp ⟨2025, 3, 1, 9, 0, 0, some (-180)⟩ + 3600 ∧
    (⟨2025, 3, 1, 10, 0, 0, some (-180)⟩ : PyDateTime).offset
      = (⟨2025, 3, 1, 9, 0, 0, some (-180)⟩ : PyDateTime).offset := by
  have h := claim_C1_amended
    [("start_datetime".data, .str "2025-03-01T09:00:00-03:00".data),
     ("summary".data, .str "Reuniao".data)]
    (.str "Reuniao".data) "2025-03-01T09:00:00-03:00".data
    ⟨2025, 3, 1, 9, 0, 0, some (-180)⟩ ⟨2025, 3, 1, 10, 0, 0, some (-180)⟩
    true rfl rfl rfl rfl
  exact ⟨h.1, rfl, h.2.1, h.2.2⟩

namespace Agendador

lemma dropWhile_eq_self_of_prefix (p : Char → Bool) (u t : List Char)
    (hpre : u <+: t) (ht : List.dropWhile p t = t) :
    List.dropWhile p u = u := by
  cases u with
  | nil => rfl
  | cons a u2 =>
    obtain ⟨r, hr⟩ := hpre
    cases hpae : p a with
    | false =>
      rw [List.dropWhile_cons, hpae]
      simp
    | true =>
      exfalso
      rw [← hr, List.cons_append, List.dropWhile_cons, hpae, if_pos rfl] at ht
      have h1 := congrArg List.length ht
      have h2 : (List.dropWhile p (u2 ++ r)).length ≤ (u2 ++ r).length :=
        (List.dropWhile_suffix p).sublist.length_le
      simp only [List.length_cons] at h1
      omega

lemma dropLeading_strip_noop (p : Char → Bool) (s : List Char) :
    dropLeading p (dropTrailing p (dropLeading p s))
      = dropTrailing p (dropLeading p s) :=
  dropWhile_eq_self_of_prefix p _ _
    (List.rdropWhile_prefix p (dropLeading p s))
    (List.dropWhile_idempotent p s)

lemma strip_strip (p : Char → Bool) (s : List Char) :
    dropTrailing p (dropLeading p (dropTrailing p (dropLeading p s)))
      = dropTrailing p (dropLeading p s) := by
  rw [dropLeading_strip_noop]
  exact List.rdropWhile_idempotent p (dropLeading p s)

lemma pyStrip_idem (s : List Char) : pyStrip (pyStrip s) = pyStrip s :=
  strip_strip isPyWs s

lemma jsonTrim_idem (s : List Char) : jsonTrim (jsonTrim s) = jsonTrim s :=
  strip_strip isJsonWs s

lemma mem_of_mem_pyStrip (c : Char) (s : List Char) (h : c ∈ pyStrip s) :
    c ∈ s :=
  (List.dropWhile_suffix isPyWs).sublist.subset
    ((List.rdropWhile_prefix isPyWs (dropLeading isPyWs s)).sublist.subset h)

lemma dropWhile_congr (p q : Char → Bool) (l : List Char)
    (h : ∀ c ∈ l, p c = q c) : l.dropWhile p = l.dropWhile q := by
  induction l with
  | nil => rfl
  | cons a l ih =>
    rw [List.dropWhile_cons, List.dropWhile_cons, h a (by simp)]
    split
    · exact ih (fun c hc => h c (by simp [hc]))
    · rfl

lemma dropTrailing_congr (p q : Char → Bool) (l : List Char)
    (h : ∀ c ∈ l, p c = q c) : dropTrailing p l = dropTrailing q l := by
  rw [dropTrailing, dropTrailing,
    dropWhile_congr p q l.reverse (fun c hc => h c (List.mem_reverse.mp hc))]

lemma strip_congr (mid : List Char) (h : ∀ c ∈ mid, isPyWs c = isJsonWs c) :
    pyStrip mid = jsonTrim mid := by
  rw [pyStrip, jsonTrim, dropLeading, dropLeading, dropWhile_congr isPyWs isJsonWs mid h]
  exact dropTrailing_congr isPyWs isJsonWs _
    (fun c hc => h c ((List.dropWhile_suffix isJsonWs).sublist.subset hc))

lemma ws_eq_of_no_vt (mid : List Char) (h0b : '\x0b' ∉ mid)
    (h0c : '\x0c' ∉ mid) : ∀ c ∈ mid, isPyWs c = isJsonWs c := by
  intro c hc
  have h1 : ¬ (c = '\x0b') := fun w => h0b (w ▸ hc)
  have h2 : ¬ (c = '\x0c') := fun w => h0c (w ▸ hc)
  simp [isPyWs, isJsonWs, h1, h2]

lemma processCleaned_pyStrip (mid : List Char) (h0b : '\x0b' ∉ mid)
    (h0c : '\x0c' ∉ mid) :
    processCleaned (pyStrip mid) = processCleaned mid := by
  have hst : pyStrip mid = jsonTrim mid :=
    strip_congr mid (ws_eq_of_no_vt mid h0b h0c)
  have hload : jsonLoads (pyStrip mid) = jsonLoads mid := by
    rw [jsonLoads, jsonLoads, hst, jsonTrim_idem]
  by_cases hmid : mid = []
  · rw [hmid]
    rfl
  · by_cases hse : pyStrip mid = []
    · have hnone : jsonLoads mid = none := by
        rw [← hload, hse]
        rfl
      rw [hse, processCleaned, processCleaned]
      simp [hmid, hnone]
    · rw [processCleaned, processCleaned, hload]
      simp [hse, hmid]

end Agendador

namespace Agendador

lemma replaceGo_nil (pat rep : List Char) (fuel : Nat) :
    replaceGo pat rep fuel [] = [] := by
  cases fuel <;> rfl

lemma isPrefixOf_append_self (l r : List Char) : l.isPrefixOf (l ++ r) = true :=
  List.isPrefixOf_iff_prefix.mpr ⟨r, rfl⟩

lemma replaceGo_match (p0 : Char) (pt rep s2 : List Char) (fuel : Nat) :
    replaceGo (p0 :: pt) rep (fuel + 1) ((p0 :: pt) ++ s2)
      = rep ++ replaceGo (p0 :: pt) rep fuel s2 := by
  show replaceGo (p0 :: pt) rep (fuel + 1) (p0 :: (pt ++ s2)) = _
  have hp : (p0 :: pt).isPrefixOf (p0 :: (pt ++ s2)) = true :=
    isPrefixOf_append_self (p0 :: pt) s2
  rw [replaceGo, if_pos hp]
  simp [List.drop_left]

lemma replaceGo_skip (pt rep : List Char) :
    ∀ (mid : List Char) (fuel : Nat) (tail : List Char), '`' ∉ mid →
      replaceGo ('`' :: pt) rep (mid.length + fuel) (mid ++ tail)
        = mid ++ replaceGo ('`' :: pt) rep fuel tail
  | [], fuel, tail, _ => by simp
  | c :: mid2, fuel, tail, h => by
    have hc : c ≠ '`' := fun w => h (by simp [w])
    have hm : '`' ∉ mid2 := fun w => h (by simp [w])
    have hlen : (c :: mid2).length + fuel = (mid2.length + fuel) + 1 := by
      simp [List.length_cons]
      omega
    rw [hlen, List.cons_append, replaceGo]
    have hpre : ¬ (('`' :: pt).isPrefixOf (c :: (mid2 ++ tail)) = true) := by
      simp [List.isPrefixOf]
      intro w
      exact absurd w.symm hc
    rw [if_neg hpre, replaceGo_skip pt rep mid2 fuel tail hm]
    rfl

lemma pyReplace_noop (s pt rep : List Char) (h : '`' ∉ s) :
    pyReplace s ('`' :: pt) rep = s := by
  have h2 := replaceGo_skip pt rep s 0 [] h
  simp only [List.append_nil, Nat.add_zero] at h2
  rw [pyReplace, h2, replaceGo_nil, List.append_nil]

lemma replaceGo_tail7 (rep : List Char) (f : Nat) :
    replaceGo "```json".data rep (f + 3) "```".data = "```".data := by
  show replaceGo "```json".data rep ((f + 2) + 1) ('`' :: "``".data) = _
  rw [replaceGo, if_neg (by decide)]
  show _ :: replaceGo "```json".data rep ((f + 1) + 1) ('`' :: "`".data) = _
  rw [replaceGo, if_neg (by decide)]
  show _ :: _ :: replaceGo "```json".data rep (f + 1) ('`' :: "".data) = _
  rw [replaceGo, if_neg (by decide)]
  show _ :: _ :: _ :: replaceGo "```json".data rep f [] = _
  rw [replaceGo_nil]

lemma replaceGo_tail3 (f : Nat) :
    replaceGo "```".data [] (f + 3) "```".data = [] := by
  show replaceGo "```".data [] ((f + 2) + 1) ("```".data ++ []) = _
  rw [show ("```".data : List Char) ++ [] = ('`' :: "``".data) ++ [] from rfl]
  rw [replaceGo_match '`' "``".data [] [] (f + 2)]
  rw [replaceGo_nil]
  rfl

end Agendador

namespace Agendador

lemma mem_of_isPrefixOf (l s : List Char) (c : Char)
    (h : l.isPrefixOf s = true) (hc : c ∈ l) : c ∈ s := by
  obtain ⟨r, hr⟩ := List.isPrefixOf_iff_prefix.mp h
  rw [← hr]
  exact List.mem_append.mpr (Or.inl hc)

lemma mem_of_isSuffixOf (l s : List Char) (c : Char)
    (h : l.isSuffixOf s = true) (hc : c ∈ l) : c ∈ s := by
  obtain ⟨r, hr⟩ := List.isSuffixOf_iff_suffix.mp h
  rw [← hr]
  exact List.mem_append.mpr (Or.inr hc)

lemma pyReplace_fence7 (mid : List Char) (hbt : '`' ∉ mid) :
    pyReplace ("```json".data ++ (mid ++ "```".data)) "```json".data []
      = mid ++ "```".data := by
  have hlen : ("```json".data ++ (mid ++ "```".data)).length
      = (mid.length + 9) + 1 := by
    simp
  rw [pyReplace, hlen]
  have h1 : replaceGo "```json".data [] ((mid.length + 9) + 1)
      ("```json".data ++ (mid ++ "```".data))
      = [] ++ replaceGo "```json".data [] (mid.length + 9) (mid ++ "```".data) :=
    replaceGo_match '`' "``json".data [] (mid ++ "```".data) (mid.length + 9)
  rw [h1, List.nil_append]
  have h2 : replaceGo "```json".data [] (mid.length + 9) (mid ++ "```".data)
      = mid ++ replaceGo "```json".data [] 9 "```".data :=
    replaceGo_skip "``json".data [] mid 9 "```".data hbt
  rw [h2]
  have h3 : replaceGo "```json".data [] 9 "```".data = "```".data :=
    replaceGo_tail7 [] 6
  rw [h3]

lemma pyReplace_fence3 (mid : List Char) (hbt : '`' ∉ mid) :
    pyReplace (mid ++ "```".data) "```".data [] = mid := by
  have hlen : (mid ++ "```".data).length = mid.length + 3 := by simp
  rw [pyReplace, hlen]
  have h2 : replaceGo "```".data [] (mid.length + 3) (mid ++ "```".data)
      = mid ++ replaceGo "```".data [] 3 "```".data :=
    replaceGo_skip "``".data [] mid 3 "```".data hbt
  rw [h2]
  have h3 : replaceGo "```".data [] 3 "```".data = [] := replaceGo_tail3 0
  rw [h3, List.append_nil]

lemma cleanA_fenced (raw mid : List Char)
    (hstrip : pyStrip raw = "```json".data ++ (mid ++ "```".data))
    (hbt : '`' ∉ mid) : Agendator.cleanResponse raw = mid := by
  rw [Agendator.cleanResponse, hstrip, pyReplace_fence7 mid hbt,
    pyReplace_fence3 mid hbt]

lemma cleanB_fenced (raw mid : List Char)
    (hstrip : pyStrip raw = "```json".data ++ (mid ++ "```".data)) :
    AgendatorActions.cleanResponse raw = pyStrip mid := by
  have hpre : "```json".data.isPrefixOf ("```json".data ++ (mid ++ "```".data))
      = true := isPrefixOf_append_self "```json".data (mid ++ "```".data)
  have hsuf : "```".data.isSuffixOf (mid ++ "```".data) = true :=
    List.isSuffixOf_iff_suffix.mpr ⟨mid, rfl⟩
  have hdrop : ("```json".data ++ (mid ++ "```".data)).drop 7
      = mid ++ "```".data := List.drop_left "```json".data (mid ++ "```".data)
  have hdl : dropLast 3 (mid ++ "```".data) = mid := by
    rw [dropLast]
    simp [List.take_left]
  simp only [AgendatorActions.cleanResponse, hstrip]
  rw [if_pos hpre, hdrop, if_pos hsuf, hdl]

lemma cleanA_noBT (raw : List Char) (h : '`' ∉ raw) :
    Agendator.cleanResponse raw = pyStrip raw := by
  have hs : '`' ∉ pyStrip raw := fun w => h (mem_of_mem_pyStrip _ _ w)
  rw [Agendator.cleanResponse]
  have h1 : pyReplace (pyStrip raw) "```json".data [] = pyStrip raw :=
    pyReplace_noop _ "``json".data [] hs
  rw [h1]
  exact pyReplace_noop _ "``".data [] hs

lemma cleanB_noBT (raw : List Char) (h : '`' ∉ raw) :
    AgendatorActions.cleanResponse raw = pyStrip raw := by
  have hs : '`' ∉ pyStrip raw := fun w => h (mem_of_mem_pyStrip _ _ w)
  have hpre : ¬ ("```json".data.isPrefixOf (pyStrip raw) = true) := fun w =>
    hs (mem_of_isPrefixOf "```json".data (pyStrip raw) '`' w (by decide))
  have hsuf : ¬ ("```".data.isSuffixOf (pyStrip raw) = true) := fun w =>
    hs (mem_of_isSuffixOf "```".data (pyStrip raw) '`' w (by decide))
  simp only [AgendatorActions.cleanResponse]
  rw [if_neg hpre, if_neg hsuf]
  exact pyStrip_idem raw

end Agendador

/-- C10, counterexample: for the raw response text
`{"eventos": ["```"]}` — fence markers embedded in a JSON string — the
continuous-loop cleaning deletes the in-string backticks (yielding the
candidate `""`) while the single-shot cleaning leaves them (yielding
`"```"`), so the two variants compute different candidate-event lists. -/
theorem claim_C10_counterexample :
    (Agendator.get_events_from_email
        (fun _ => .ok "\x7b\"eventos\": [\"```\"]\x7d".data)).result
      = .ok (.arr [.str "".data]) ∧
    (AgendatorActions.get_events_from_email
        (fun _ => .ok "\x7b\"eventos\": [\"```\"]\x7d".data)).result
      = .ok (.arr [.str "```".data]) ∧
    Json.arr [.str "".data] ≠ Json.arr [.str "```".data] := by
  refine ⟨rfl, rfl, ?_⟩
  simp only [ne_eq, Json.arr.injEq, List.cons.injEq, Json.str.injEq, and_true]
  decide

/-- C10, amended: the two variants' response-cleaning-and-parsing steps
agree on every raw text free of backticks, and on every raw text whose
stripped form is exactly a `` ```json `` fence, a backtick-free payload
(also free of the vertical-tab and form-feed characters, on which Python
`strip` and JSON whitespace differ), and a closing `` ``` `` fence; they
diverge when fence markers occur elsewhere in the text (see the
counterexample). -/
theorem claim_C10_amended :
    (∀ raw : List Char, '`' ∉ raw →
      Agendator.get_events_from_email (fun _ => .ok raw)
        = AgendatorActions.get_events_from_email (fun _ => .ok raw)) ∧
    (∀ raw mid : List Char,
      pyStrip raw = "```json".data ++ (mid ++ "```".data) →
      '`' ∉ mid → '\x0b' ∉ mid → '\x0c' ∉ mid →
      Agendator.get_events_from_email (fun _ => .ok raw)
        = AgendatorActions.get_events_from_email (fun _ => .ok raw)) := by
  have hB : ∀ raw : List Char,
      AgendatorActions.get_events_from_email (fun _ => .ok raw)
        = ⟨processCleaned (AgendatorActions.cleanResponse raw), 1, []⟩ :=
    fun raw => by
      rw [AgendatorActions.get_events_eq,
        AgendatorActions.getEventsGo_ok _ 0 1 raw rfl]
  have hA : ∀ raw : List Char,
      Agendator.get_events_from_email (fun _ => .ok raw)
        = ⟨processCleaned (Agendator.cleanResponse raw), 1, []⟩ :=
    fun _ => rfl
  constructor
  · intro raw hbt
    rw [hA, hB, cleanA_noBT raw hbt, cleanB_noBT raw hbt]
  · intro raw mid hstrip hbt h0b h0c
    rw [hA, hB, cleanA_fenced raw mid hstrip hbt, cleanB_fenced raw mid hstrip,
      processCleaned_pyStrip mid h0b h0c]

/-- Witness for C10 at concrete inputs: an unfenced object response and a
fenced one. -/
theorem claim_C10_witness :
    ('`' ∉ "\x7b\"eventos\": []\x7d".data ∧
      Agendator.get_events_from_email
          (fun _ => .ok "\x7b\"eventos\": []\x7d".data)
        = AgendatorActions.get_events_from_email
            (fun _ => .ok "\x7b\"eventos\": []\x7d".data)) ∧
    (pyStrip "```json\n\x7b\"eventos\": []\x7d\n```".data
        = "```json".data ++ ("\n\x7b\"eventos\": []\x7d\n".data ++ "```".data) ∧
      Agendator.get_events_from_email
          (fun _ => .ok "```json\n\x7b\"eventos\": []\x7d\n```".data)
        = AgendatorActions.get_events_from_email
            (fun _ => .ok "```json\n\x7b\"eventos\": []\x7d\n```".data)) :=
  ⟨⟨by decide, claim_C10_amended.1 _ (by decide)⟩,
   ⟨by decide,
    claim_C10_amended.2 _ "\n\x7b\"eventos\": []\x7d\n".data (by decide)
      (by decide) (by decide) (by decide)⟩⟩
